import Mathlib

/-!
Shallow embedding of the secure-notes backend (FastAPI application under
`src/notes_backend/src/`): the password hasher (`security.py`), the token
codec and identity resolver (`auth.py`), the auth routes (`api/auth_routes.py`)
and the notes routes (`api/notes_routes.py`), together with proofs of the
specification's claims about them.

Conventions of the embedding:
* Python exceptions raised by handlers (`HTTPException`) become `Except`
  results; a raised exception is `Except.error`.
* The database session is an explicit `DB` value (lists of `User` and `Note`
  rows); handlers that mutate the store return the new `DB`.
* Timestamps are second-resolution integers (`Int`), passed explicitly as
  `now` where the Python code reads the clock.
* The third-party `jose` JWT library and the `passlib` bcrypt context are not
  part of the repository; they are modelled from the specification (§4.1,
  §4.2) and marked as such on each definition.
-/

namespace SecureNotes

/-- HTTP error carried by a raised `HTTPException(status_code, detail)`. -/
structure HTTPError where
  status_code : Nat
  detail : String
deriving DecidableEq, Repr

/-- Row of the `users` table (`models.py`): numeric id, unique email,
password hash.  `created_at` plays no role in any claim and is omitted. -/
structure User where
  id : Nat
  email : String
  password_hash : String
deriving DecidableEq, Repr

/-- Row of the `notes` table (`models.py`): numeric id, owner id, title,
content, and the `updated_at` timestamp used for ordering in listings. -/
structure Note where
  id : Nat
  user_id : Nat
  title : String
  content : String
  updated_at : Int
deriving DecidableEq, Repr

/-- The database session's visible state: the two tables. -/
structure DB where
  users : List User
  notes : List Note
deriving DecidableEq, Repr

/-- `db.get(User, uid)`: primary-key lookup. -/
def DB.getUser (db : DB) (uid : Nat) : Option User :=
  db.users.find? (fun u => u.id == uid)

/-- `db.get(Note, nid)`: primary-key lookup. -/
def DB.getNote (db : DB) (nid : Nat) : Option Note :=
  db.notes.find? (fun n => n.id == nid)

/-- `db.scalar(select(User).where(User.email == e))`: first user with the
given email. -/
def DB.userByEmail (db : DB) (e : String) : Option User :=
  db.users.find? (fun u => u.email == e)

/-! ### Credential hasher (`security.py`, backed by passlib/bcrypt)

`hash_password` and `verify_password` delegate to passlib's bcrypt
`CryptContext`; passlib is outside the repository, so the hash format is
modelled from the spec (§4.1): a salted one-way transform whose output
embeds its parameters, with `verify` recomputing from those parameters and
returning `false` on mismatch or malformed hash.  The model hash string is
`"$2b$" ++ escaped salt ++ "$" ++ escaped digest`, where escaping keeps the
`'$'` separators unambiguous. -/

/-- Escape a character list so it contains no `'$'`: `'$'` becomes `"DD"`,
`'D'` becomes `"DE"`, everything else is unchanged. -/
def escChars : List Char → List Char
  | [] => []
  | c :: cs =>
    if c = '$' then 'D' :: 'D' :: escChars cs
    else if c = 'D' then 'D' :: 'E' :: escChars cs
    else c :: escChars cs

/-- Split a character list at every `'$'`. -/
def splitDollar : List Char → List (List Char)
  | [] => [[]]
  | c :: cs =>
    match splitDollar cs with
    | [] => [[c]]
    | g :: gs => if c = '$' then [] :: g :: gs else (c :: g) :: gs

/-- No `'$'` occurs in the list. -/
def dollarFree (l : List Char) : Prop := '$' ∉ l

/-- Modelled from the spec (§4.1): bcrypt hashing via passlib.  Salted
(`salt` is the non-deterministic input), deterministic format, output never
equal to the plaintext. -/
def hash_password (salt password : String) : String :=
  ⟨'$' :: '2' :: 'b' :: '$' :: escChars salt.data ++ '$' :: escChars password.data⟩

/-- Parse a stored hash into its embedded salt and digest; `none` when the
string is not in the hash format. -/
def parseHash (password_hash : String) : Option (List Char × List Char) :=
  match splitDollar password_hash.data with
  | [[], ['2', 'b'], salt, digest] => some (salt, digest)
  | _ => none

/-- Modelled from the spec (§4.1): passlib verification.  Parses the
parameters embedded in the stored hash and recomputes; any malformed stored
hash yields `false`, never an exception (the function is total into `Bool`). -/
def verify_password (plain password_hash : String) : Bool :=
  match parseHash password_hash with
  | some (_, digest) => digest == escChars plain.data
  | none => false

/-! ### Decimal subjects

Python's `str(user_id)` renders the id in decimal; `sub.isdigit()` checks
that the subject is a nonempty string of digit characters, and `int(sub)`
parses it back (accepting non-canonical forms such as `"007"`).  Unicode
digit characters beyond ASCII are not modelled: every subject the code
itself produces is ASCII decimal. -/

/-- The decimal digit character for `d % 10`. -/
def digitCharOf (d : Nat) : Char :=
  match d % 10 with
  | 0 => '0' | 1 => '1' | 2 => '2' | 3 => '3' | 4 => '4'
  | 5 => '5' | 6 => '6' | 7 => '7' | 8 => '8' | _ => '9'

/-- Digit characters of a positive number, most significant first
(empty for `0`). -/
def natDigits (n : Nat) : List Char :=
  if h : n = 0 then []
  else natDigits (n / 10) ++ [digitCharOf (n % 10)]
decreasing_by exact Nat.div_lt_self (Nat.pos_of_ne_zero h) (by decide)

/-- `str(n)` for a natural number: its decimal rendering. -/
def natStr (n : Nat) : String :=
  if n = 0 then "0" else ⟨natDigits n⟩

/-- Numeric value of a digit character. -/
def digitVal (c : Char) : Nat := c.toNat - '0'.toNat

/-- `int(s)` on a string of decimal digits. -/
def strToNat (s : String) : Nat :=
  s.data.foldl (fun a c => a * 10 + digitVal c) 0

/-- Python truthiness-plus-`isdigit` test applied to an optional subject:
`not sub or not sub.isdigit()` is the negation of this.  `Char.isDigit` is
ASCII-only, so this gate is faithful exactly on subjects made of ASCII
characters — which covers every subject the code itself issues
(`str(user_id)`); the wider Unicode behavior of `str.isdigit`, which
diverges from this gate, is modelled separately by `pyCharIsDigit` and
`sub_steps_py` below. -/
def subIsDigits : Option String → Bool
  | none => false
  | some s => !s.data.isEmpty && s.data.all Char.isDigit

/-- Modelled from Python's Unicode semantics of `str.isdigit` for the code
points this development uses: a character has the digit property iff it is
an ASCII digit, an Arabic-Indic decimal digit ٠–٩ (U+0660–U+0669), or one
of the superscripts ¹ ² ³ (U+00B9, U+00B2, U+00B3), which carry the digit
property without being decimal digits.  The remaining Unicode digit blocks
behave like the Arabic-Indic one and are not transcribed. -/
def pyCharIsDigit (c : Char) : Bool :=
  c.isDigit || (0x660 ≤ c.toNat && c.toNat ≤ 0x669) ||
    c.toNat == 0xB9 || c.toNat == 0xB2 || c.toNat == 0xB3

/-- Modelled from Python `int`: the decimal value of a single character,
`none` for characters `int` rejects — including the superscripts, which
pass `isdigit` yet have no decimal value. -/
def pyCharDecimal (c : Char) : Option Nat :=
  if c.isDigit then some (c.toNat - '0'.toNat)
  else if 0x660 ≤ c.toNat && c.toNat ≤ 0x669 then some (c.toNat - 0x660)
  else none

/-- Modelled from Python `int(s)` as applied to a subject that passed the
`isdigit` gate: `none` models the `ValueError` raised when some character
has the digit property but no decimal value. -/
def pyInt (s : String) : Option Nat :=
  s.data.foldl
    (fun acc c =>
      match acc, pyCharDecimal c with
      | some a, some d => some (a * 10 + d)
      | _, _ => none)
    (some 0)

/-- Outcome of the subject steps of `get_current_user` (`auth.py` lines
86–93) under Python's Unicode string semantics: `unauthorized` is the 401
raised by `not sub or not sub.isdigit()`, `uncaughtValueError` the
`ValueError` escaping from `int(sub)` (surfacing as an HTTP 500, not an
`HTTPException`), `userNotFound` the 401 `"User not found"`, and `ok` the
resolved user. -/
inductive SubOutcome
  | unauthorized
  | uncaughtValueError
  | userNotFound
  | ok (u : User)
deriving DecidableEq, Repr

/-- The subject check and user lookup of `get_current_user` under Python's
Unicode semantics (`pyCharIsDigit`/`pyInt`).  On ASCII subjects this agrees
exactly with the `subIsDigits` gate used in `get_current_user`; on wider
Unicode subjects it exposes the divergence between the two. -/
def sub_steps_py (db : DB) (sub : Option String) : SubOutcome :=
  match sub with
  | none => .unauthorized
  | some s =>
    if s.data.isEmpty || !(s.data.all pyCharIsDigit) then .unauthorized
    else
      match pyInt s with
      | none => .uncaughtValueError
      | some uid =>
        match db.getUser uid with
        | none => .userNotFound
        | some u => .ok u

/-! ### Token codec (`auth.py`, backed by the `jose` JWT library)

The claim set built by `_create_token` is `{sub, type, iat, exp}`.  The
`jose` library itself is outside the repository; its `encode`/`decode` pair
is modelled from the spec (§4.2): a token is an opaque signed container, and
`decode` succeeds exactly when the signature matches the verification secret
and the expiry is strictly in the future, collapsing signature mismatch,
malformed structure, and expiry violation into the one `JWTError` failure. -/

/-- The JWT claim set `{sub, type, iat, exp}` built by `_create_token`.
`sub`/`type` are `Option` because `payload.get` distinguishes absence. -/
structure Claims where
  sub : Option String
  type : Option String
  iat : Int
  exp : Int
deriving DecidableEq, Repr

/-- Modelled from the spec (§4.2): a token string is either a well-formed
signed claim container (whose signature verifies exactly under the secret it
was signed with) or malformed. -/
inductive Token
  | malformed (raw : String)
  | signed (claims : Claims) (secret : String)
deriving DecidableEq, Repr

/-- Modelled from the spec (§4.2): `jose.jwt.decode` at verification time
`now`.  `none` is the single `JWTError` failure class: signature mismatch,
malformed structure, and expiry violation are indistinguishable; `exp` must
be strictly in the future. -/
def jwtDecode (secret : String) (now : Int) : Token → Option Claims
  | .malformed _ => none
  | .signed c s => if s = secret ∧ now < c.exp then some c else none

/-- Process-wide configuration read from the environment at startup
(`auth.py` lines 16–19). -/
structure Config where
  SECRET_KEY : String
  ACCESS_TOKEN_EXPIRE_MINUTES : Nat
  REFRESH_TOKEN_EXPIRE_DAYS : Nat
deriving DecidableEq, Repr

/-- The env-default configuration (`change_me`, 30 minutes, 7 days). -/
def defaultConfig : Config := ⟨"change_me", 30, 7⟩

/-- `_create_token(subject, token_type, expires_delta)`: builds
`{sub, type, iat, exp}` with `iat = now`, `exp = now + delta` (seconds) and
signs with `SECRET_KEY`. -/
def create_token (cfg : Config) (now : Int) (subject token_type : String)
    (expires_delta : Int) : Token :=
  .signed { sub := some subject, type := some token_type, iat := now,
            exp := now + expires_delta } cfg.SECRET_KEY

/-- `create_access_token(user_id)`: type `access`, lifetime
`ACCESS_TOKEN_EXPIRE_MINUTES` minutes. -/
def create_access_token (cfg : Config) (now : Int) (user_id : Nat) : Token :=
  create_token cfg now (natStr user_id) "access"
    (60 * (cfg.ACCESS_TOKEN_EXPIRE_MINUTES : Int))

/-- `create_refresh_token(user_id)`: type `refresh`, lifetime
`REFRESH_TOKEN_EXPIRE_DAYS` days. -/
def create_refresh_token (cfg : Config) (now : Int) (user_id : Nat) : Token :=
  create_token cfg now (natStr user_id) "refresh"
    (86400 * (cfg.REFRESH_TOKEN_EXPIRE_DAYS : Int))

/-- `_decode_token`: decode, turning any `JWTError` into
`401 "Invalid token"`. -/
def decode_token (cfg : Config) (now : Int) (token : Token) :
    Except HTTPError Claims :=
  match jwtDecode cfg.SECRET_KEY now token with
  | none => .error ⟨401, "Invalid token"⟩
  | some payload => .ok payload

/-- `verify_refresh_token(refresh_token)`: decode, require
`type == "refresh"`, require a truthy all-digit `sub`, return `int(sub)`. -/
def verify_refresh_token (cfg : Config) (now : Int) (refresh_token : Token) :
    Except HTTPError Nat := do
  let payload ← decode_token cfg now refresh_token
  if payload.type ≠ some "refresh" then
    throw ⟨401, "Invalid refresh token"⟩
  else if subIsDigits payload.sub = false then
    throw ⟨401, "Invalid refresh token"⟩
  else
    pure (strToNat (payload.sub.getD ""))

/-- `get_current_user(token, db)`: decode, require `type == "access"`,
require a truthy all-digit `sub`, look the user up by `int(sub)`. -/
def get_current_user (cfg : Config) (now : Int) (db : DB) (token : Token) :
    Except HTTPError User := do
  let payload ← decode_token cfg now token
  if payload.type ≠ some "access" then
    throw ⟨401, "Invalid access token"⟩
  else if subIsDigits payload.sub = false then
    throw ⟨401, "Invalid access token"⟩
  else
    match db.getUser (strToNat (payload.sub.getD "")) with
    | none => throw ⟨401, "User not found"⟩
    | some user => pure user

/-! ### Auth routes (`api/auth_routes.py`)

Request bodies are the pydantic schemas of `schemas.py`; their validation
(email syntax, password minimum length 8) happens before the handlers run
and is outside these definitions. -/

/-- `SignupRequest` body (post-validation). -/
structure SignupRequest where
  email : String
  password : String
deriving DecidableEq, Repr

/-- `LoginRequest` body. -/
structure LoginRequest where
  email : String
  password : String
deriving DecidableEq, Repr

/-- `TokenResponse` body. -/
structure TokenResponse where
  access_token : Token
  refresh_token : Token
  token_type : String
deriving DecidableEq, Repr

/-- `RefreshRequest` body. -/
structure RefreshRequest where
  refresh_token : Token
deriving DecidableEq, Repr

/-- `Message` body. -/
structure Message where
  message : String
deriving DecidableEq, Repr

/-- Autoincrement primary key the store assigns to a new `users` row. -/
def nextUserId (db : DB) : Nat :=
  db.users.foldr (fun u m => max u.id m) 0 + 1

/-- `POST /auth/signup`: 409 if the email is already registered, else hash
the password and persist the new user.  `salt` is the bcrypt salt drawn
inside `hash_password`; the second component is the session's state after
the request. -/
def signup (salt : String) (db : DB) (payload : SignupRequest) :
    Except HTTPError Message × DB :=
  match db.userByEmail payload.email with
  | some _ => (.error ⟨409, "Email already registered"⟩, db)
  | none =>
    let user : User :=
      { id := nextUserId db, email := payload.email,
        password_hash := hash_password salt payload.password }
    (.ok ⟨"User created"⟩, { db with users := db.users ++ [user] })

/-- Number of persisted user records carrying a given email. -/
def countEmail (db : DB) (e : String) : Nat :=
  (db.users.filter (fun u => u.email == e)).length

/-- Run a sequence of signup requests (each with its bcrypt salt), keeping
the store state across them; failed signups leave the state as they found
it. -/
def signupSeq (db : DB) (reqs : List (String × SignupRequest)) : DB :=
  reqs.foldl (fun d sp => (signup sp.1 d sp.2).2) db

/-- `POST /auth/login`: look the user up by email; absent user and failed
password verification raise the identical 401; on success issue a token
pair with subject `user.id`. -/
def login (cfg : Config) (now : Int) (db : DB) (payload : LoginRequest) :
    Except HTTPError TokenResponse :=
  match db.userByEmail payload.email with
  | none => .error ⟨401, "Invalid credentials"⟩
  | some user =>
    if verify_password payload.password user.password_hash then
      .ok ⟨create_access_token cfg now user.id,
           create_refresh_token cfg now user.id, "bearer"⟩
    else
      .error ⟨401, "Invalid credentials"⟩

/-- `POST /auth/refresh`: verify the refresh token, look the user up, issue
a fresh token pair.  No stored state changes. -/
def refresh (cfg : Config) (now : Int) (db : DB) (payload : RefreshRequest) :
    Except HTTPError TokenResponse := do
  let user_id ← verify_refresh_token cfg now payload.refresh_token
  match db.getUser user_id with
  | none => throw ⟨401, "User not found"⟩
  | some user =>
    pure ⟨create_access_token cfg now user.id,
          create_refresh_token cfg now user.id, "bearer"⟩

/-! ### Notes routes (`api/notes_routes.py`)

Each handler resolves the caller through the `get_current_user` dependency
first.  Handlers that mutate the store return the session's state after the
request alongside the response, so that "the note is unchanged" is a
statement about that state. -/

/-- `NoteCreate` body. -/
structure NoteCreate where
  title : String
  content : String
deriving DecidableEq, Repr

/-- `NoteUpdate` body: both fields optional. -/
structure NoteUpdate where
  title : Option String
  content : Option String
deriving DecidableEq, Repr

/-- Lower-case a character list (`ILIKE`'s case folding). -/
def lowerChars (l : List Char) : List Char := l.map Char.toLower

/-- Does `l` start with `p`? -/
def startsWithChars : List Char → List Char → Bool
  | _, [] => true
  | [], _ :: _ => false
  | c :: cs, d :: ds => c == d && startsWithChars cs ds

/-- Does `needle` occur as a contiguous run of `hay`? -/
def containsChars : List Char → List Char → Bool
  | [], needle => needle.isEmpty
  | c :: cs, needle => startsWithChars (c :: cs) needle || containsChars cs needle

/-- `column.ilike(f"%{q}%")`: case-insensitive substring match.  SQL `%`/`_`
wildcards inside `q` are not given wildcard meaning here; the distinction
does not affect any claim, which only needs that the filter keeps a subset. -/
def ilike (text q : String) : Bool :=
  containsChars (lowerChars text.data) (lowerChars q.data)

/-- Insert a note into a list kept in descending `updated_at` order. -/
def insertByUpdated (n : Note) : List Note → List Note
  | [] => [n]
  | m :: ms =>
    if m.updated_at ≤ n.updated_at then n :: m :: ms
    else m :: insertByUpdated n ms

/-- `order_by(Note.updated_at.desc())`. -/
def sortByUpdatedDesc (l : List Note) : List Note :=
  l.foldr insertByUpdated []

/-- `GET /notes`: the caller's notes, optionally filtered by `q` over
title/content, newest-updated first, with offset/limit pagination. -/
def list_notes (cfg : Config) (now : Int) (db : DB) (token : Token)
    (q : Option String) (limit offset : Nat) :
    Except HTTPError (List Note) := do
  let user ← get_current_user cfg now db token
  let base := db.notes.filter (fun n => n.user_id == user.id)
  let filtered :=
    match q with
    | some s =>
      if s ≠ "" then
        base.filter (fun n => ilike n.title s || ilike n.content s)
      else base
    | none => base
  pure (((sortByUpdatedDesc filtered).drop offset).take limit)

/-- Autoincrement primary key the store assigns to a new `notes` row. -/
def nextNoteId (db : DB) : Nat :=
  db.notes.foldr (fun n m => max n.id m) 0 + 1

/-- `POST /notes`: create a note owned by the caller. -/
def create_note (cfg : Config) (now : Int) (db : DB) (token : Token)
    (payload : NoteCreate) : Except HTTPError Note × DB :=
  match get_current_user cfg now db token with
  | .error e => (.error e, db)
  | .ok user =>
    let note : Note :=
      { id := nextNoteId db, user_id := user.id, title := payload.title,
        content := payload.content, updated_at := now }
    (.ok note, { db with notes := db.notes ++ [note] })

/-- `GET /notes/{note_id}`: 404 when the note is absent or owned by someone
else. -/
def get_note (cfg : Config) (now : Int) (db : DB) (token : Token)
    (note_id : Nat) : Except HTTPError Note := do
  let user ← get_current_user cfg now db token
  match db.getNote note_id with
  | none => throw ⟨404, "Note not found"⟩
  | some note =>
    if note.user_id ≠ user.id then throw ⟨404, "Note not found"⟩
    else pure note

/-- `PUT /notes/{note_id}`: 404 when absent or not owned; otherwise apply
the provided fields (`updated_at` refreshed by the store's `onupdate`). -/
def update_note (cfg : Config) (now : Int) (db : DB) (token : Token)
    (note_id : Nat) (payload : NoteUpdate) : Except HTTPError Note × DB :=
  match get_current_user cfg now db token with
  | .error e => (.error e, db)
  | .ok user =>
    match db.getNote note_id with
    | none => (.error ⟨404, "Note not found"⟩, db)
    | some note =>
      if note.user_id ≠ user.id then (.error ⟨404, "Note not found"⟩, db)
      else
        let note' : Note :=
          { note with title := payload.title.getD note.title,
                      content := payload.content.getD note.content,
                      updated_at := now }
        (.ok note',
         { db with notes := db.notes.map (fun n => if n.id == note.id then note' else n) })

/-- `DELETE /notes/{note_id}`: 404 when absent or not owned; otherwise
remove the row. -/
def delete_note (cfg : Config) (now : Int) (db : DB) (token : Token)
    (note_id : Nat) : Except HTTPError Unit × DB :=
  match get_current_user cfg now db token with
  | .error e => (.error e, db)
  | .ok user =>
    match db.getNote note_id with
    | none => (.error ⟨404, "Note not found"⟩, db)
    | some note =>
      if note.user_id ≠ user.id then (.error ⟨404, "Note not found"⟩, db)
      else (.ok (), { db with notes := db.notes.filter (fun n => !(n.id == note.id)) })

/-! ### Lemmas about the modelled hasher and decimal subjects -/

theorem escChars_dollarFree (l : List Char) : dollarFree (escChars l) := by
  induction l with
  | nil => simp [escChars, dollarFree]
  | cons c cs ih =>
    by_cases h : c = '$'
    · simpa [escChars, h, dollarFree] using ih
    · by_cases h2 : c = 'D'
      · simpa [escChars, h, h2, dollarFree] using ih
      · simp only [escChars, if_neg h, if_neg h2]
        intro hm
        rcases List.mem_cons.mp hm with h3 | h3
        · exact h h3.symm
        · exact ih h3

theorem escChars_append (a b : List Char) :
    escChars (a ++ b) = escChars a ++ escChars b := by
  induction a with
  | nil => simp [escChars]
  | cons c cs ih =>
    by_cases h : c = '$'
    · simp [escChars, h, ih]
    · by_cases h2 : c = 'D'
      · simp [escChars, h, h2, ih]
      · simp [escChars, h, h2, ih]

theorem escChars_injective : Function.Injective escChars := by
  intro a
  induction a with
  | nil =>
    intro b hb
    cases b with
    | nil => rfl
    | cons c cs =>
      exfalso
      by_cases h : c = '$' <;> by_cases h2 : c = 'D' <;>
        simp [escChars, h, h2] at hb
  | cons c cs ih =>
    intro b hb
    cases b with
    | nil =>
      exfalso
      by_cases h : c = '$' <;> by_cases h2 : c = 'D' <;>
        simp [escChars, h, h2] at hb
    | cons d ds =>
      by_cases hc : c = '$' <;> by_cases hd : d = '$'
      · subst hc; subst hd
        simp only [escChars, if_pos rfl] at hb
        have := ih (List.cons.inj (List.cons.inj hb).2).2
        rw [this]
      · by_cases hd2 : d = 'D'
        · subst hc; subst hd2
          simp only [escChars, if_pos rfl, if_neg hd] at hb
          have h1 := (List.cons.inj (List.cons.inj hb).2).1
          exact absurd h1 (by decide)
        · subst hc
          simp only [escChars, if_pos rfl, if_neg hd, if_neg hd2] at hb
          exact absurd (List.cons.inj hb).1.symm hd2
      · by_cases hc2 : c = 'D'
        · subst hd; subst hc2
          simp only [escChars, if_pos rfl, if_neg hc] at hb
          have h1 := (List.cons.inj (List.cons.inj hb).2).1
          exact absurd h1 (by decide)
        · subst hd
          simp only [escChars, if_pos rfl, if_neg hc, if_neg hc2] at hb
          exact absurd (List.cons.inj hb).1 hc2
      · by_cases hc2 : c = 'D' <;> by_cases hd2 : d = 'D'
        · subst hc2; subst hd2
          simp only [escChars, if_neg hc, if_pos rfl] at hb
          have := ih (List.cons.inj (List.cons.inj hb).2).2
          rw [this]
        · subst hc2
          simp only [escChars, if_neg hc, if_pos rfl, if_neg hd, if_neg hd2] at hb
          have h1 := (List.cons.inj hb).1
          exact absurd h1.symm hd2
        · subst hd2
          simp only [escChars, if_neg hc, if_neg hc2, if_neg hd, if_pos rfl] at hb
          have h1 := (List.cons.inj hb).1
          exact absurd h1 hc2
        · simp only [escChars, if_neg hc, if_neg hc2, if_neg hd, if_neg hd2] at hb
          obtain ⟨h1, h2⟩ := List.cons.inj hb
          rw [h1, ih h2]

theorem splitDollar_ne_nil (l : List Char) : splitDollar l ≠ [] := by
  cases l with
  | nil => simp [splitDollar]
  | cons c cs =>
    simp only [splitDollar]
    cases h : splitDollar cs with
    | nil => simp
    | cons g gs => by_cases hc : c = '$' <;> simp [hc]

theorem splitDollar_dollarFree (l : List Char) (h : dollarFree l) :
    splitDollar l = [l] := by
  induction l with
  | nil => rfl
  | cons c cs ih =>
    have hc : c ≠ '$' := fun hh => h (hh ▸ List.mem_cons_self c cs)
    have hcs : dollarFree cs := fun hm => h (List.mem_cons_of_mem c hm)
    simp only [splitDollar, ih hcs, if_neg hc]

theorem splitDollar_append (a b : List Char) (h : dollarFree a) :
    splitDollar (a ++ '$' :: b) = a :: splitDollar b := by
  induction a with
  | nil =>
    simp only [List.nil_append, splitDollar]
    cases hb : splitDollar b with
    | nil => exact absurd hb (splitDollar_ne_nil b)
    | cons g gs => simp
  | cons c cs ih =>
    have hc : c ≠ '$' := fun hh => h (hh ▸ List.mem_cons_self c cs)
    have hcs : dollarFree cs := fun hm => h (List.mem_cons_of_mem c hm)
    have hih : splitDollar (cs ++ '$' :: b) = cs :: splitDollar b := ih hcs
    simp only [List.cons_append, splitDollar, List.append_eq, hih, if_neg hc]

/-- The split of a model hash string recovers its three groups. -/
theorem splitDollar_hash (salt password : String) :
    splitDollar (hash_password salt password).data =
      [[], ['2', 'b'], escChars salt.data, escChars password.data] := by
  show splitDollar ('$' :: '2' :: 'b' :: '$' :: escChars salt.data ++
      '$' :: escChars password.data) = _
  have h1 : ('$' :: '2' :: 'b' :: '$' :: escChars salt.data ++
      '$' :: escChars password.data) =
      [] ++ '$' :: (['2', 'b'] ++ '$' :: (escChars salt.data ++
        '$' :: escChars password.data)) := by simp
  rw [h1, splitDollar_append _ _ (by simp [dollarFree]),
    splitDollar_append _ _ (by simp only [dollarFree]; decide),
    splitDollar_append _ _ (escChars_dollarFree salt.data),
    splitDollar_dollarFree _ (escChars_dollarFree password.data)]

/-- Parsing the model hash recovers its salt and digest. -/
theorem parseHash_hash (salt password : String) :
    parseHash (hash_password salt password) =
      some (escChars salt.data, escChars password.data) := by
  simp [parseHash, splitDollar_hash]

/-- Verification succeeds on the hash of the same plaintext. -/
theorem verify_hash_self (salt password : String) :
    verify_password password (hash_password salt password) = true := by
  simp [verify_password, parseHash_hash]

/-- Verification fails on the hash of a different plaintext. -/
theorem verify_hash_ne (salt p q : String) (h : p ≠ q) :
    verify_password q (hash_password salt p) = false := by
  simp only [verify_password, parseHash_hash]
  apply beq_eq_false_iff_ne.mpr
  intro heq
  exact h (String.ext (escChars_injective heq))

theorem digitVal_digitCharOf (d : Nat) : digitVal (digitCharOf d) = d % 10 := by
  have h : d % 10 < 10 := Nat.mod_lt d (by decide)
  unfold digitCharOf
  interval_cases h : d % 10 <;> simp [h, digitVal]

theorem isDigit_digitCharOf (d : Nat) : (digitCharOf d).isDigit = true := by
  have h : d % 10 < 10 := Nat.mod_lt d (by decide)
  unfold digitCharOf
  interval_cases h : d % 10 <;> simp [h]

theorem foldl_digits_append (l : List Char) (c : Char) (a : Nat) :
    (l ++ [c]).foldl (fun a c => a * 10 + digitVal c) a =
      l.foldl (fun a c => a * 10 + digitVal c) a * 10 + digitVal c := by
  simp [List.foldl_append]

theorem natDigits_value (n : Nat) :
    (natDigits n).foldl (fun a c => a * 10 + digitVal c) 0 = n := by
  induction n using Nat.strong_induction_on with
  | _ n ih =>
    by_cases h : n = 0
    · simp [natDigits, h]
    · rw [natDigits, dif_neg h, foldl_digits_append,
        ih (n / 10) (Nat.div_lt_self (Nat.pos_of_ne_zero h) (by decide)),
        digitVal_digitCharOf]
      omega

theorem natDigits_all_digit (n : Nat) :
    ∀ c ∈ natDigits n, c.isDigit = true := by
  induction n using Nat.strong_induction_on with
  | _ n ih =>
    by_cases h : n = 0
    · simp [natDigits, h]
    · rw [natDigits, dif_neg h]
      intro c hc
      rcases List.mem_append.mp hc with hm | hm
      · exact ih (n / 10) (Nat.div_lt_self (Nat.pos_of_ne_zero h) (by decide)) c hm
      · rcases List.mem_singleton.mp hm with rfl
        exact isDigit_digitCharOf _

/-- `str(n)` parses back to `n`: the subject round-trips. -/
theorem strToNat_natStr (n : Nat) : strToNat (natStr n) = n := by
  by_cases h : n = 0
  · simp [natStr, h, strToNat, digitVal]
  · simp only [natStr, if_neg h, strToNat]
    exact natDigits_value n

/-- `str(n)` passes the `isdigit` test. -/
theorem subIsDigits_natStr (n : Nat) : subIsDigits (some (natStr n)) = true := by
  by_cases h : n = 0
  · simp [natStr, h, subIsDigits]
  · have hne : natDigits n ≠ [] := by
      rw [natDigits, dif_neg h]; simp
    simp only [natStr, if_neg h, subIsDigits, Bool.and_eq_true, Bool.not_eq_true]
    constructor
    · simpa [List.isEmpty_iff] using hne
    · exact List.all_eq_true.mpr fun c hc => natDigits_all_digit n c hc

/-! ### Store lemmas -/

theorem find?_append_single {α : Type} (p : α → Bool) (l : List α) (x : α)
    (h : l.find? p = none) (hx : p x = true) :
    (l ++ [x]).find? p = some x := by
  rw [List.find?_append, h, Option.none_or, List.find?_cons_of_pos _ hx]

theorem getUser_id (db : DB) (uid : Nat) (u : User)
    (h : db.getUser uid = some u) : u.id = uid := by
  simpa using List.find?_some h

theorem getUser_mem (db : DB) (uid : Nat) (u : User)
    (h : db.getUser uid = some u) : u ∈ db.users :=
  List.mem_of_find?_eq_some h

theorem userId_le_fold (l : List User) (u : User) (hm : u ∈ l) :
    u.id ≤ l.foldr (fun v m => max v.id m) 0 := by
  induction l with
  | nil => cases hm
  | cons a as ih =>
    rcases List.mem_cons.mp hm with rfl | hm2
    · exact le_max_left _ _
    · exact le_trans (ih hm2) (le_max_right _ _)

/-- The autoincrement id is fresh: larger than every persisted user id. -/
theorem userId_lt_nextUserId (db : DB) (u : User) (hm : u ∈ db.users) :
    u.id < nextUserId db :=
  Nat.lt_succ_of_le (userId_le_fold db.users u hm)

/-- With unique primary keys, looking a member note up by its id finds it. -/
theorem find?_note_id_of_mem (l : List Note) (n : Note)
    (hnd : (l.map Note.id).Nodup) (hm : n ∈ l) :
    l.find? (fun m => m.id == n.id) = some n := by
  induction l with
  | nil => cases hm
  | cons a as ih =>
    rcases List.mem_cons.mp hm with rfl | hmem
    · exact List.find?_cons_of_pos _ (by simp)
    · by_cases ha : a.id = n.id
      · exfalso
        have hmap : n.id ∈ as.map Note.id := List.mem_map_of_mem _ hmem
        exact (List.nodup_cons.mp hnd).1 (ha ▸ hmap)
      · rw [List.find?_cons_of_neg _ (by simpa using ha)]
        exact ih (List.nodup_cons.mp hnd).2 hmem

theorem mem_insertByUpdated (x n : Note) (l : List Note) :
    x ∈ insertByUpdated n l ↔ x = n ∨ x ∈ l := by
  induction l with
  | nil => simp [insertByUpdated]
  | cons m ms ih =>
    by_cases h : m.updated_at ≤ n.updated_at
    · simp only [insertByUpdated, if_pos h, List.mem_cons]
    · simp only [insertByUpdated, if_neg h, List.mem_cons, ih]
      tauto

theorem mem_sortByUpdatedDesc (x : Note) (l : List Note) :
    x ∈ sortByUpdatedDesc l ↔ x ∈ l := by
  induction l with
  | nil => simp [sortByUpdatedDesc]
  | cons m ms ih =>
    show x ∈ insertByUpdated m (sortByUpdatedDesc ms) ↔ _
    rw [mem_insertByUpdated, ih, List.mem_cons]

theorem countEmail_eq_zero_iff (db : DB) (e : String) :
    countEmail db e = 0 ↔ db.userByEmail e = none := by
  unfold countEmail DB.userByEmail
  rw [List.length_eq_zero, List.filter_eq_nil_iff, List.find?_eq_none]

/-! ### Token-codec lemmas -/

theorem decode_token_ok (cfg : Config) (now : Int) (c : Claims)
    (h : now < c.exp) :
    decode_token cfg now (.signed c cfg.SECRET_KEY) = .ok c := by
  simp [decode_token, jwtDecode, h]

theorem decode_token_expired (cfg : Config) (now : Int) (c : Claims)
    (h : c.exp ≤ now) :
    decode_token cfg now (.signed c cfg.SECRET_KEY) =
      .error ⟨401, "Invalid token"⟩ := by
  have hlt : ¬now < c.exp := by omega
  simp [decode_token, jwtDecode, hlt]

theorem decode_token_wrong_secret (cfg : Config) (now : Int) (c : Claims)
    (s : String) (h : s ≠ cfg.SECRET_KEY) :
    decode_token cfg now (.signed c s) = .error ⟨401, "Invalid token"⟩ := by
  have : ¬(s = cfg.SECRET_KEY ∧ now < c.exp) := by
    rintro ⟨hs, -⟩; exact h hs
  simp [decode_token, jwtDecode, if_neg this]

theorem decode_token_malformed (cfg : Config) (now : Int) (raw : String) :
    decode_token cfg now (.malformed raw) = .error ⟨401, "Invalid token"⟩ := by
  simp [decode_token, jwtDecode]

/-- Success path of the identity resolver: valid signature, unexpired,
access-kind, digit subject, known user. -/
theorem get_current_user_ok (cfg : Config) (now : Int) (db : DB) (c : Claims)
    (u : User) (hexp : now < c.exp) (ht : c.type = some "access")
    (hs : subIsDigits c.sub = true)
    (hu : db.getUser (strToNat (c.sub.getD "")) = some u) :
    get_current_user cfg now db (.signed c cfg.SECRET_KEY) = .ok u := by
  have hdec := decode_token_ok cfg now c hexp
  simp [get_current_user, hdec, Bind.bind, Except.bind, ht, hs, hu, pure,
    Except.pure]

/-- Success path of refresh-token verification. -/
theorem verify_refresh_token_ok (cfg : Config) (now : Int) (c : Claims)
    (hexp : now < c.exp) (ht : c.type = some "refresh")
    (hs : subIsDigits c.sub = true) :
    verify_refresh_token cfg now (.signed c cfg.SECRET_KEY) =
      .ok (strToNat (c.sub.getD "")) := by
  have hdec := decode_token_ok cfg now c hexp
  simp [verify_refresh_token, hdec, Bind.bind, Except.bind, ht, hs, pure,
    Except.pure]

theorem pyInt_foldl_ascii (l : List Char) (hall : ∀ c ∈ l, c.isDigit = true) :
    ∀ a : Nat,
      l.foldl
        (fun acc c =>
          match acc, pyCharDecimal c with
          | some x, some d => some (x * 10 + d)
          | _, _ => none) (some a) =
      some (l.foldl (fun x c => x * 10 + digitVal c) a) := by
  induction l with
  | nil => intro a; rfl
  | cons c cs ih =>
    intro a
    have hc : c.isDigit = true := hall c (List.mem_cons_self c cs)
    have hd : pyCharDecimal c = some (digitVal c) := by
      simp [pyCharDecimal, hc, digitVal]
    simp only [List.foldl_cons, hd]
    exact ih (fun x hx => hall x (List.mem_cons_of_mem c hx)) _

/-- On ASCII-digit subjects, Python's `int` agrees with the embedding's
`int(sub)`. -/
theorem pyInt_ascii (s : String) (hall : s.data.all Char.isDigit = true) :
    pyInt s = some (strToNat s) :=
  pyInt_foldl_ascii s.data (List.all_eq_true.mp hall) 0

/-- ASCII digits pass the Unicode digit-property gate too. -/
theorem pyCharIsDigit_of_isDigit (l : List Char)
    (hall : l.all Char.isDigit = true) : l.all pyCharIsDigit = true := by
  rw [List.all_eq_true] at hall ⊢
  intro c hc
  simp [pyCharIsDigit, hall c hc]

/-- Resolver failure on an unknown subject id. -/
theorem get_current_user_user_not_found (cfg : Config) (now : Int) (db : DB)
    (c : Claims) (hexp : now < c.exp) (ht : c.type = some "access")
    (hs : subIsDigits c.sub = true)
    (hu : db.getUser (strToNat (c.sub.getD "")) = none) :
    get_current_user cfg now db (.signed c cfg.SECRET_KEY) =
      .error ⟨401, "User not found"⟩ := by
  have hdec := decode_token_ok cfg now c hexp
  simp [get_current_user, hdec, Bind.bind, Except.bind, ht, hs, hu, throw,
    throwThe, MonadExceptOf.throw]

/-- Resolver failure on a falsy or non-digit subject. -/
theorem get_current_user_bad_sub (cfg : Config) (now : Int) (db : DB)
    (c : Claims) (hexp : now < c.exp) (ht : c.type = some "access")
    (hs : subIsDigits c.sub = false) :
    get_current_user cfg now db (.signed c cfg.SECRET_KEY) =
      .error ⟨401, "Invalid access token"⟩ := by
  have hdec := decode_token_ok cfg now c hexp
  simp [get_current_user, hdec, Bind.bind, Except.bind, ht, hs, throw,
    throwThe, MonadExceptOf.throw]

/-- Membership in a page of the sorted listing implies membership in the
unsorted pool. -/
theorem mem_of_mem_page (x : Note) (l : List Note) (a b : Nat)
    (h : x ∈ ((sortByUpdatedDesc l).drop a).take b) : x ∈ l :=
  (mem_sortByUpdatedDesc x l).mp
    (List.mem_of_mem_drop (List.mem_of_mem_take h))

theorem escChars_length_ge (l : List Char) :
    l.length ≤ (escChars l).length := by
  induction l with
  | nil => simp [escChars]
  | cons c cs ih =>
    by_cases h : c = '$'
    · simp [escChars, h]; omega
    · by_cases h2 : c = 'D'
      · simp [escChars, h, h2]; omega
      · simp [escChars, h, h2]; omega

/-- The stored hash is never the plaintext. -/
theorem hash_password_ne_plain (salt password : String) :
    hash_password salt password ≠ password := by
  intro h
  have hlen : (hash_password salt password).data.length =
      password.data.length := by rw [h]
  have hexp : (escChars salt.data).length +
      ((escChars password.data).length + 1) + 1 + 1 + 1 + 1 =
      password.data.length := by
    simpa [hash_password] using hlen
  have h1 := escChars_length_ge password.data
  omega

theorem countEmail_append_match (db : DB) (u : User) (e : String)
    (he : u.email = e) :
    countEmail ⟨db.users ++ [u], db.notes⟩ e = countEmail db e + 1 := by
  simp [countEmail, List.filter_append, he]

theorem signup_conflict (salt : String) (db : DB) (payload : SignupRequest)
    (u : User) (h : db.userByEmail payload.email = some u) :
    signup salt db payload = (.error ⟨409, "Email already registered"⟩, db) := by
  simp [signup, h]

theorem signup_success (salt : String) (db : DB) (payload : SignupRequest)
    (h : db.userByEmail payload.email = none) :
    signup salt db payload =
      (.ok ⟨"User created"⟩,
       ⟨db.users ++ [⟨nextUserId db, payload.email,
          hash_password salt payload.password⟩], db.notes⟩) := by
  simp [signup, h]

/-- One persisted record for an email stays exactly one across any further
signups for that email. -/
theorem countEmail_signupSeq_one (e : String)
    (reqs : List (String × SignupRequest)) :
    ∀ db : DB, countEmail db e = 1 →
    (∀ r ∈ reqs, (r : String × SignupRequest).2.email = e) →
    countEmail (signupSeq db reqs) e = 1 := by
  induction reqs with
  | nil => exact fun db h1 _ => h1
  | cons r rs ih =>
    intro db h1 hall
    have hre : r.2.email = e := hall r (List.mem_cons_self r rs)
    have hnone : db.userByEmail e ≠ none := fun hn => by
      have h0 := (countEmail_eq_zero_iff db e).mpr hn
      omega
    obtain ⟨u, hu⟩ := Option.ne_none_iff_exists'.mp hnone
    have hconf : signup r.1 db r.2 =
        (.error ⟨409, "Email already registered"⟩, db) :=
      signup_conflict r.1 db r.2 u (by rw [hre]; exact hu)
    show countEmail (signupSeq (signup r.1 db r.2).2 rs) e = 1
    rw [hconf]
    exact ih db h1 fun x hx => hall x (List.mem_cons_of_mem r hx)

/-! ### Claim theorems -/

/-- C1: `get_current_user` follows the spec's identity-resolution algorithm
exactly.  For every access-token string: decode failure, a decoded `type`
claim other than `"access"`, an absent/non-numeric `sub` claim, and an
unknown user id each fail with a 401 Unauthorized; otherwise the full user
record whose id equals the integer value of `sub` is returned. -/
theorem C1_get_current_user_algorithm (cfg : Config) (now : Int) (db : DB)
    (token : Token) :
    (jwtDecode cfg.SECRET_KEY now token = none →
      get_current_user cfg now db token = .error ⟨401, "Invalid token"⟩) ∧
    (∀ payload, jwtDecode cfg.SECRET_KEY now token = some payload →
      (payload.type ≠ some "access" →
        get_current_user cfg now db token =
          .error ⟨401, "Invalid access token"⟩) ∧
      (payload.type = some "access" → subIsDigits payload.sub = false →
        get_current_user cfg now db token =
          .error ⟨401, "Invalid access token"⟩) ∧
      (payload.type = some "access" → subIsDigits payload.sub = true →
        db.getUser (strToNat (payload.sub.getD "")) = none →
        get_current_user cfg now db token = .error ⟨401, "User not found"⟩) ∧
      (∀ u, payload.type = some "access" → subIsDigits payload.sub = true →
        db.getUser (strToNat (payload.sub.getD "")) = some u →
        get_current_user cfg now db token = .ok u ∧
          u.id = strToNat (payload.sub.getD ""))) := by
  constructor
  · intro h
    simp [get_current_user, decode_token, h, Bind.bind, Except.bind]
  · intro payload hp
    have hdec : decode_token cfg now token = .ok payload := by
      simp [decode_token, hp]
    refine ⟨?_, ?_, ?_, ?_⟩
    · intro ht
      simp [get_current_user, hdec, Bind.bind, Except.bind, ht, throw,
        throwThe, MonadExceptOf.throw]
    · intro ht hs
      simp [get_current_user, hdec, Bind.bind, Except.bind, ht, hs, throw,
        throwThe, MonadExceptOf.throw]
    · intro ht hs hu
      simp [get_current_user, hdec, Bind.bind, Except.bind, ht, hs, hu,
        throw, throwThe, MonadExceptOf.throw]
    · intro u ht hs hu
      refine ⟨?_, (getUser_id db _ u hu).symm ▸ rfl⟩
      simp [get_current_user, hdec, Bind.bind, Except.bind, ht, hs, hu,
        pure, Except.pure]

/-- Concrete instantiation of C1's success clause: a valid access token for
user 7 resolves to the stored user record. -/
theorem C1_witness :
    get_current_user defaultConfig 0 ⟨[⟨7, "a@x.com", "h"⟩], []⟩
      (.signed ⟨some "7", some "access", 0, 1800⟩ "change_me") =
      .ok ⟨7, "a@x.com", "h"⟩ :=
  (((C1_get_current_user_algorithm defaultConfig 0
      ⟨[⟨7, "a@x.com", "h"⟩], []⟩
      (.signed ⟨some "7", some "access", 0, 1800⟩ "change_me")).2
      ⟨some "7", some "access", 0, 1800⟩ rfl).2.2.2
      ⟨7, "a@x.com", "h"⟩ rfl rfl rfl).1

/-- C2: token decode rejects any token whose expiry is not strictly in the
future, even when signed with the correct secret, and this failure is
literally the same error as a signature mismatch or malformed structure:
the one 401 `"Invalid token"` raised by `_decode_token`. -/
theorem C2_decode_rejects_expired (cfg : Config) (now : Int) (c c2 : Claims)
    (s : String) (raw : String) :
    (c.exp ≤ now →
      decode_token cfg now (.signed c cfg.SECRET_KEY) =
        .error ⟨401, "Invalid token"⟩) ∧
    (s ≠ cfg.SECRET_KEY →
      decode_token cfg now (.signed c2 s) = .error ⟨401, "Invalid token"⟩) ∧
    decode_token cfg now (.malformed raw) = .error ⟨401, "Invalid token"⟩ :=
  ⟨decode_token_expired cfg now c, decode_token_wrong_secret cfg now c2 s,
   decode_token_malformed cfg now raw⟩

/-- Concrete instantiation of C2: a correctly signed token with `exp = now`
is rejected with the same error as a forged one. -/
theorem C2_witness :
    decode_token defaultConfig 100
        (.signed ⟨some "7", some "access", 0, 100⟩ "change_me") =
      .error ⟨401, "Invalid token"⟩ ∧
    decode_token defaultConfig 100
        (.signed ⟨some "7", some "access", 0, 200⟩ "forged") =
      .error ⟨401, "Invalid token"⟩ := by
  have h := C2_decode_rejects_expired defaultConfig 100
    ⟨some "7", some "access", 0, 100⟩ ⟨some "7", some "access", 0, 200⟩
    "forged" "junk"
  exact ⟨h.1 (by decide), h.2.1 (by decide)⟩

/-- C3: token kinds are never interchangeable.  A validly signed, unexpired
token of type `"refresh"` is rejected 401 by `get_current_user`, and one of
type `"access"` is rejected 401 by `verify_refresh_token`. -/
theorem C3_kinds_not_interchangeable (cfg : Config) (now : Int) (db : DB)
    (c c2 : Claims) :
    (c.type = some "refresh" → now < c.exp →
      get_current_user cfg now db (.signed c cfg.SECRET_KEY) =
        .error ⟨401, "Invalid access token"⟩) ∧
    (c2.type = some "access" → now < c2.exp →
      verify_refresh_token cfg now (.signed c2 cfg.SECRET_KEY) =
        .error ⟨401, "Invalid refresh token"⟩) := by
  constructor
  · intro ht hexp
    have hdec := decode_token_ok cfg now c hexp
    have hne : c.type ≠ some "access" := by rw [ht]; decide
    simp [get_current_user, hdec, Bind.bind, Except.bind, hne, throw,
      throwThe, MonadExceptOf.throw]
  · intro ht hexp
    have hdec := decode_token_ok cfg now c2 hexp
    have hne : c2.type ≠ some "refresh" := by rw [ht]; decide
    simp [verify_refresh_token, hdec, Bind.bind, Except.bind, hne, throw,
      throwThe, MonadExceptOf.throw]

/-- Concrete instantiation of C3: both cross-kind rejections at a concrete
claim set and store. -/
theorem C3_witness :
    get_current_user defaultConfig 0 ⟨[⟨7, "a@x.com", "h"⟩], []⟩
        (.signed ⟨some "7", some "refresh", 0, 1800⟩ "change_me") =
      .error ⟨401, "Invalid access token"⟩ ∧
    verify_refresh_token defaultConfig 0
        (.signed ⟨some "7", some "access", 0, 1800⟩ "change_me") =
      .error ⟨401, "Invalid refresh token"⟩ := by
  have h := C3_kinds_not_interchangeable defaultConfig 0
    ⟨[⟨7, "a@x.com", "h"⟩], []⟩ ⟨some "7", some "refresh", 0, 1800⟩
    ⟨some "7", some "access", 0, 1800⟩
  exact ⟨h.1 rfl (by decide), h.2 rfl (by decide)⟩

/-- C4: login with a non-existent email and login with a wrong password for
an existing email are observationally identical: both raise the 401
`"Invalid credentials"` with the same status code and payload, so the
response does not reveal whether the email is registered. -/
theorem C4_login_uniform_error (cfg : Config) (now : Int) (db : DB)
    (p1 p2 : LoginRequest) (u : User)
    (h1 : db.userByEmail p1.email = none)
    (h2 : db.userByEmail p2.email = some u)
    (hv : verify_password p2.password u.password_hash = false) :
    login cfg now db p1 = .error ⟨401, "Invalid credentials"⟩ ∧
    login cfg now db p2 = .error ⟨401, "Invalid credentials"⟩ ∧
    login cfg now db p1 = login cfg now db p2 := by
  have e1 : login cfg now db p1 = .error ⟨401, "Invalid credentials"⟩ := by
    simp [login, h1]
  have e2 : login cfg now db p2 = .error ⟨401, "Invalid credentials"⟩ := by
    simp [login, h2, hv]
  exact ⟨e1, e2, e1.trans e2.symm⟩

/-- Concrete instantiation of C4: unknown email and wrong password produce
the identical response. -/
theorem C4_witness :
    login defaultConfig 0 ⟨[⟨1, "a@x.com", hash_password "s" "correctpw"⟩], []⟩
        ⟨"b@x.com", "whatever"⟩ =
      login defaultConfig 0 ⟨[⟨1, "a@x.com", hash_password "s" "correctpw"⟩], []⟩
        ⟨"a@x.com", "wrongpass"⟩ :=
  (C4_login_uniform_error defaultConfig 0
    ⟨[⟨1, "a@x.com", hash_password "s" "correctpw"⟩], []⟩
    ⟨"b@x.com", "whatever"⟩ ⟨"a@x.com", "wrongpass"⟩
    ⟨1, "a@x.com", hash_password "s" "correctpw"⟩
    (by decide) (by decide) (by decide)).2.2

/-- C5: password verification is total and non-raising: it is a function
into `Bool` (the embedding of "never raises" for the spec-modelled passlib
verify), returns `false` on every stored hash that fails to parse, and
returns `false` on every mismatch against a well-formed hash. -/
theorem C5_verify_password_total (plain stored : String) :
    (verify_password plain stored = true ∨
      verify_password plain stored = false) ∧
    (parseHash stored = none → verify_password plain stored = false) ∧
    (∀ salt p, plain ≠ p →
      verify_password plain (hash_password salt p) = false) := by
  refine ⟨?_, ?_, ?_⟩
  · cases verify_password plain stored
    · right; rfl
    · left; rfl
  · intro hp
    simp [verify_password, hp]
  · intro salt p hne
    exact verify_hash_ne salt p plain (fun he => hne he.symm)

/-- Concrete instantiation of C5: a malformed stored hash and a wrong
password both verify to `false`. -/
theorem C5_witness :
    verify_password "pw" "not-a-hash" = false ∧
    verify_password "pw" (hash_password "s" "other") = false := by
  have h := C5_verify_password_total "pw" "not-a-hash"
  exact ⟨h.2.1 (by decide), h.2.2 "s" "other" (by decide)⟩

/-- C6: token subjects round-trip.  `create_access_token n` carries subject
exactly `str(n)`; resolving it while a user with id `n` exists yields that
user; and signup followed by login with the same credentials yields an
access token that resolves back to the created user's record. -/
theorem C6_subject_roundtrip (cfg : Config) (salt : String) (now now2 : Int)
    (db : DB) (n : Nat) (u : User) (payload : SignupRequest) :
    (create_access_token cfg now n =
      .signed ⟨some (natStr n), some "access", now,
        now + 60 * (cfg.ACCESS_TOKEN_EXPIRE_MINUTES : Int)⟩ cfg.SECRET_KEY) ∧
    (now2 < now + 60 * (cfg.ACCESS_TOKEN_EXPIRE_MINUTES : Int) →
      db.getUser n = some u →
      get_current_user cfg now2 db (create_access_token cfg now n) = .ok u ∧
        u.id = n) ∧
    (db.userByEmail payload.email = none →
      (signup salt db payload).1 = .ok ⟨"User created"⟩ ∧
      login cfg now (signup salt db payload).2
          ⟨payload.email, payload.password⟩ =
        .ok ⟨create_access_token cfg now (nextUserId db),
             create_refresh_token cfg now (nextUserId db), "bearer"⟩ ∧
      (now2 < now + 60 * (cfg.ACCESS_TOKEN_EXPIRE_MINUTES : Int) →
        get_current_user cfg now2 (signup salt db payload).2
            (create_access_token cfg now (nextUserId db)) =
          .ok ⟨nextUserId db, payload.email,
               hash_password salt payload.password⟩)) := by
  refine ⟨rfl, ?_, ?_⟩
  · intro hexp hu
    have hres : get_current_user cfg now2 db
        (.signed ⟨some (natStr n), some "access", now,
          now + 60 * (cfg.ACCESS_TOKEN_EXPIRE_MINUTES : Int)⟩ cfg.SECRET_KEY) =
        .ok u := by
      apply get_current_user_ok
      · exact hexp
      · rfl
      · exact subIsDigits_natStr n
      · simpa [strToNat_natStr] using hu
    refine ⟨hres, ?_⟩
    exact getUser_id db n u hu
  · intro hfree
    set newUser : User :=
      ⟨nextUserId db, payload.email, hash_password salt payload.password⟩
      with hnew
    have hsignup : signup salt db payload =
        (.ok ⟨"User created"⟩, ⟨db.users ++ [newUser], db.notes⟩) := by
      simp [signup, hfree, hnew]
    have hemail : (DB.mk (db.users ++ [newUser]) db.notes).userByEmail
        payload.email = some newUser := by
      unfold DB.userByEmail at hfree ⊢
      exact find?_append_single _ _ _ hfree (by simp [hnew])
    have hgetuser : (DB.mk (db.users ++ [newUser]) db.notes).getUser
        (nextUserId db) = some newUser := by
      unfold DB.getUser
      apply find?_append_single
      · exact List.find?_eq_none.mpr fun v hv => by
          have := userId_lt_nextUserId db v hv
          simp only [beq_eq_false_iff_ne.symm] at *
          simp
          omega
      · simp [hnew]
    refine ⟨by rw [hsignup], ?_, ?_⟩
    · rw [hsignup]
      simp only [login, hemail]
      have hv : verify_password payload.password newUser.password_hash = true := by
        rw [hnew]
        exact verify_hash_self salt payload.password
      rw [if_pos hv]
    · intro hexp
      rw [hsignup]
      apply get_current_user_ok
      · exact hexp
      · rfl
      · exact subIsDigits_natStr (nextUserId db)
      · simpa [strToNat_natStr] using hgetuser

/-- Concrete instantiation of C6: signup of a fresh account on an empty
store, then login, then resolution of the issued access token back to the
created user (id 1). -/
theorem C6_witness :
    login defaultConfig 0 (signup "s" ⟨[], []⟩ ⟨"a@x.com", "longenough1"⟩).2
        ⟨"a@x.com", "longenough1"⟩ =
      .ok ⟨create_access_token defaultConfig 0 1,
           create_refresh_token defaultConfig 0 1, "bearer"⟩ ∧
    get_current_user defaultConfig 60 (signup "s" ⟨[], []⟩
        ⟨"a@x.com", "longenough1"⟩).2
        (create_access_token defaultConfig 0 1) =
      .ok ⟨1, "a@x.com", hash_password "s" "longenough1"⟩ := by
  have h := (C6_subject_roundtrip defaultConfig "s" 0 60 ⟨[], []⟩ 1
    ⟨1, "a@x.com", hash_password "s" "longenough1"⟩
    ⟨"a@x.com", "longenough1"⟩).2.2 (by decide)
  exact ⟨h.2.1, h.2.2 (by decide)⟩

/-- C7: signup fails 409 Conflict on a registered email and leaves the
store unchanged; on a fresh email it persists exactly one new user whose
`password_hash` is the hasher's output and never the plaintext; and after
any nonempty sequence of signups with one email, exactly one record with
that email persists. -/
theorem C7_signup_unique_email (salt : String) (db : DB)
    (payload : SignupRequest) (u : User) :
    (db.userByEmail payload.email = some u →
      signup salt db payload =
        (.error ⟨409, "Email already registered"⟩, db)) ∧
    (db.userByEmail payload.email = none →
      signup salt db payload =
        (.ok ⟨"User created"⟩,
         ⟨db.users ++ [⟨nextUserId db, payload.email,
            hash_password salt payload.password⟩], db.notes⟩) ∧
      hash_password salt payload.password ≠ payload.password ∧
      countEmail (signup salt db payload).2 payload.email = 1) ∧
    (∀ reqs : List (String × SignupRequest), reqs ≠ [] →
      countEmail db payload.email = 0 →
      (∀ r ∈ reqs, (r : String × SignupRequest).2.email = payload.email) →
      countEmail (signupSeq db reqs) payload.email = 1) := by
  refine ⟨signup_conflict salt db payload u, ?_, ?_⟩
  · intro h
    have h0 : countEmail db payload.email = 0 :=
      (countEmail_eq_zero_iff db payload.email).mpr h
    refine ⟨signup_success salt db payload h,
      hash_password_ne_plain salt payload.password, ?_⟩
    rw [signup_success salt db payload h]
    rw [countEmail_append_match db _ payload.email rfl, h0]
  · intro reqs hne h0 hall
    cases reqs with
    | nil => exact absurd rfl hne
    | cons r rs =>
      have hre : r.2.email = payload.email := hall r (List.mem_cons_self r rs)
      have hnone : db.userByEmail r.2.email = none := by
        rw [hre]
        exact (countEmail_eq_zero_iff db payload.email).mp h0
      have h1 : countEmail (signup r.1 db r.2).2 payload.email = 1 := by
        rw [signup_success r.1 db r.2 hnone]
        rw [countEmail_append_match db _ payload.email hre, h0]
      exact countEmail_signupSeq_one payload.email rs (signup r.1 db r.2).2 h1
        fun x hx => hall x (List.mem_cons_of_mem r hx)

/-- Concrete instantiation of C7: two signups with the same email — the
second conflicts and exactly one record persists. -/
theorem C7_witness :
    signup "s2" (signupSeq ⟨[], []⟩ [("s1", ⟨"a@x.com", "password1"⟩)])
        ⟨"a@x.com", "password2"⟩ =
      (.error ⟨409, "Email already registered"⟩,
       signupSeq ⟨[], []⟩ [("s1", ⟨"a@x.com", "password1"⟩)]) ∧
    countEmail (signupSeq ⟨[], []⟩
        [("s1", ⟨"a@x.com", "password1"⟩), ("s2", ⟨"a@x.com", "password2"⟩)])
      "a@x.com" = 1 := by
  constructor
  · exact (C7_signup_unique_email "s2"
      (signupSeq ⟨[], []⟩ [("s1", ⟨"a@x.com", "password1"⟩)])
      ⟨"a@x.com", "password2"⟩
      ⟨1, "a@x.com", hash_password "s1" "password1"⟩).1 (by decide)
  · exact (C7_signup_unique_email "irrelevant" ⟨[], []⟩
      ⟨"a@x.com", "ignored"⟩ ⟨0, "", ""⟩).2.2
      [("s1", ⟨"a@x.com", "password1"⟩), ("s2", ⟨"a@x.com", "password2"⟩)]
      (by decide) (by decide) (by decide)

/-- C8: refresh with a validly signed, unexpired refresh-kind token whose
subject names an existing user returns a new access token and a new refresh
token, both with subject that same user id; and since refresh changes no
stored state (its result touches no store), the old refresh token presented
again at any time before its natural expiry still succeeds. -/
theorem C8_refresh_rotation (cfg : Config) (now now2 : Int) (db : DB)
    (c : Claims) (u : User)
    (htype : c.type = some "refresh") (hexp : now < c.exp)
    (hs : subIsDigits c.sub = true)
    (hu : db.getUser (strToNat (c.sub.getD "")) = some u) :
    refresh cfg now db ⟨.signed c cfg.SECRET_KEY⟩ =
      .ok ⟨create_access_token cfg now u.id,
           create_refresh_token cfg now u.id, "bearer"⟩ ∧
    u.id = strToNat (c.sub.getD "") ∧
    create_access_token cfg now u.id =
      .signed ⟨some (natStr u.id), some "access", now,
        now + 60 * (cfg.ACCESS_TOKEN_EXPIRE_MINUTES : Int)⟩ cfg.SECRET_KEY ∧
    create_refresh_token cfg now u.id =
      .signed ⟨some (natStr u.id), some "refresh", now,
        now + 86400 * (cfg.REFRESH_TOKEN_EXPIRE_DAYS : Int)⟩ cfg.SECRET_KEY ∧
    (now2 < c.exp →
      refresh cfg now2 db ⟨.signed c cfg.SECRET_KEY⟩ =
        .ok ⟨create_access_token cfg now2 u.id,
             create_refresh_token cfg now2 u.id, "bearer"⟩) := by
  have main : ∀ t : Int, t < c.exp →
      refresh cfg t db ⟨.signed c cfg.SECRET_KEY⟩ =
        .ok ⟨create_access_token cfg t u.id,
             create_refresh_token cfg t u.id, "bearer"⟩ := by
    intro t ht
    have hver := verify_refresh_token_ok cfg t c ht htype hs
    simp [refresh, hver, Bind.bind, Except.bind, hu, pure, Except.pure]
  exact ⟨main now hexp, getUser_id db _ u hu, rfl, rfl,
    fun h2 => main now2 h2⟩

/-- Concrete instantiation of C8: refresh for user 7 succeeds at `now = 0`
and the same token succeeds again at `now = 1000`. -/
theorem C8_witness :
    refresh defaultConfig 0 ⟨[⟨7, "a@x.com", "h"⟩], []⟩
        ⟨.signed ⟨some "7", some "refresh", 0, 604800⟩ "change_me"⟩ =
      .ok ⟨create_access_token defaultConfig 0 7,
           create_refresh_token defaultConfig 0 7, "bearer"⟩ ∧
    refresh defaultConfig 1000 ⟨[⟨7, "a@x.com", "h"⟩], []⟩
        ⟨.signed ⟨some "7", some "refresh", 0, 604800⟩ "change_me"⟩ =
      .ok ⟨create_access_token defaultConfig 1000 7,
           create_refresh_token defaultConfig 1000 7, "bearer"⟩ := by
  have h := C8_refresh_rotation defaultConfig 0 1000
    ⟨[⟨7, "a@x.com", "h"⟩], []⟩ ⟨some "7", some "refresh", 0, 604800⟩
    ⟨7, "a@x.com", "h"⟩ rfl (by decide) (by decide) (by decide)
  exact ⟨h.1, h.2.2.2.2 (by decide)⟩

/-- C9: cross-user note isolation.  For a persisted note and a token that
resolves to a different user, `GET`, `PUT` and `DELETE` on that note id all
fail 404 `"Note not found"` and leave the store unchanged, and the note is
absent from every listing of that user, for every search query and page. -/
theorem C9_cross_user_isolation (cfg : Config) (now : Int) (db : DB)
    (tokenB : Token) (userB : User) (n : Note) (payload : NoteUpdate)
    (q : Option String) (limit offset : Nat)
    (hnd : (db.notes.map Note.id).Nodup)
    (hmem : n ∈ db.notes)
    (hres : get_current_user cfg now db tokenB = .ok userB)
    (hne : userB.id ≠ n.user_id) :
    get_note cfg now db tokenB n.id = .error ⟨404, "Note not found"⟩ ∧
    update_note cfg now db tokenB n.id payload =
      (.error ⟨404, "Note not found"⟩, db) ∧
    delete_note cfg now db tokenB n.id =
      (.error ⟨404, "Note not found"⟩, db) ∧
    ∀ l, list_notes cfg now db tokenB q limit offset = .ok l → n ∉ l := by
  have hget : db.getNote n.id = some n :=
    find?_note_id_of_mem db.notes n hnd hmem
  have hown : n.user_id ≠ userB.id := fun h => hne h.symm
  refine ⟨?_, ?_, ?_, ?_⟩
  · simp [get_note, hres, Bind.bind, Except.bind, hget, hown, throw,
      throwThe, MonadExceptOf.throw]
  · simp [update_note, hres, hget, hown]
  · simp [delete_note, hres, hget, hown]
  · intro l hl hmeml
    simp only [list_notes, hres, Bind.bind, Except.bind, pure, Except.pure,
      Except.ok.injEq] at hl
    have hbase : n ∈ db.notes.filter (fun m => m.user_id == userB.id) := by
      rcases q with _ | s
      · exact mem_of_mem_page n _ offset limit (hl ▸ hmeml)
      · by_cases hs : s = ""
        · simp only [hs, ne_eq, not_true_eq_false, if_false] at hl
          exact mem_of_mem_page n _ offset limit (hl ▸ hmeml)
        · simp only [ne_eq, hs, not_false_eq_true, if_true] at hl
          have hin := mem_of_mem_page n _ offset limit (hl ▸ hmeml)
          exact (List.mem_filter.mp hin).1
    have heq : (n.user_id == userB.id) = true := (List.mem_filter.mp hbase).2
    exact hown (by simpa using heq)

/-- Concrete instantiation of C9: user 2's token gets 404 on user 1's note
and does not see it in the listing. -/
theorem C9_witness :
    get_note defaultConfig 0
        ⟨[⟨1, "a@x.com", "h1"⟩, ⟨2, "b@x.com", "h2"⟩],
         [⟨10, 1, "t", "c", 0⟩]⟩
        (.signed ⟨some "2", some "access", 0, 1800⟩ "change_me") 10 =
      .error ⟨404, "Note not found"⟩ ∧
    (∀ l, list_notes defaultConfig 0
        ⟨[⟨1, "a@x.com", "h1"⟩, ⟨2, "b@x.com", "h2"⟩],
         [⟨10, 1, "t", "c", 0⟩]⟩
        (.signed ⟨some "2", some "access", 0, 1800⟩ "change_me")
        none 100 0 = .ok l → (⟨10, 1, "t", "c", 0⟩ : Note) ∉ l) := by
  have h := C9_cross_user_isolation defaultConfig 0
    ⟨[⟨1, "a@x.com", "h1"⟩, ⟨2, "b@x.com", "h2"⟩], [⟨10, 1, "t", "c", 0⟩]⟩
    (.signed ⟨some "2", some "access", 0, 1800⟩ "change_me")
    ⟨2, "b@x.com", "h2"⟩ ⟨10, 1, "t", "c", 0⟩ ⟨none, none⟩ none 100 0
    (by decide) (by decide) rfl (by decide)
  exact ⟨h.1, h.2.2.2⟩

/-- C10 is false as stated, on both readings of "digit".  The Arabic-Indic
seven ٧ (U+0667) is not a plain (ASCII) digit, yet under Python's Unicode
`str.isdigit`/`int` semantics the code resolves subject `"٧"` to user 7
instead of rejecting it with Unauthorized; and under Python's own digit
notion the superscript subject `"²"` is digit-only, yet `int` raises an
uncaught `ValueError` (HTTP 500) there, so the code neither resolves it nor
rejects it with 401. -/
theorem C10_counterexample :
    ('٧'.isDigit = false ∧ pyCharIsDigit '٧' = true ∧
      sub_steps_py ⟨[⟨7, "a@x.com", "h"⟩], []⟩ (some "٧") =
        .ok ⟨7, "a@x.com", "h"⟩) ∧
    ('²'.isDigit = false ∧ pyCharIsDigit '²' = true ∧
      sub_steps_py ⟨[⟨7, "a@x.com", "h"⟩], []⟩ (some "²") =
        .uncaughtValueError) := by
  decide

/-- C10 amended (restricted to ASCII subjects, where the embedded gate and
Python's `str.isdigit`/`int` agree exactly): for every validly signed,
unexpired access token whose subject is a nonempty string of ASCII digits,
`get_current_user` resolves it exactly as it would the canonical decimal
subject — `"007"` acts as `"7"` — and agrees with the Unicode-semantics
model of the subject steps; every subject containing an ASCII non-digit
character (a sign, whitespace, letter or symbol) is rejected with a 401.
Wider-Unicode subjects diverge as the counterexample records: a non-ASCII
decimal digit resolves to its value and a digit-property non-decimal
character escapes as an uncaught `ValueError`. -/
theorem C10_ascii_subjects (cfg : Config) (now : Int) (db : DB)
    (c : Claims) (s : String)
    (hexp : now < c.exp) (ht : c.type = some "access")
    (hsub : c.sub = some s) :
    (s.data ≠ [] → s.data.all Char.isDigit = true →
      get_current_user cfg now db (.signed c cfg.SECRET_KEY) =
        get_current_user cfg now db
          (.signed ⟨some (natStr (strToNat s)), c.type, c.iat, c.exp⟩
            cfg.SECRET_KEY) ∧
      get_current_user cfg now db (.signed c cfg.SECRET_KEY) =
        (match db.getUser (strToNat s) with
         | none => .error ⟨401, "User not found"⟩
         | some u => .ok u) ∧
      sub_steps_py db c.sub =
        (match db.getUser (strToNat s) with
         | none => .userNotFound
         | some u => .ok u)) ∧
    ((∃ ch ∈ s.data, ch.toNat < 128 ∧ ch.isDigit = false) →
      get_current_user cfg now db (.signed c cfg.SECRET_KEY) =
        .error ⟨401, "Invalid access token"⟩) := by
  constructor
  · intro hne hall
    have hdig : subIsDigits c.sub = true := by
      rw [hsub]
      simp [subIsDigits, hall, List.isEmpty_iff, hne]
    have hgetD : c.sub.getD "" = s := by rw [hsub]; rfl
    have hpy : sub_steps_py db c.sub =
        (match db.getUser (strToNat s) with
         | none => .userNotFound
         | some u => .ok u) := by
      rw [hsub]
      have hgate : (s.data.isEmpty || !(s.data.all pyCharIsDigit)) = false := by
        simp [List.isEmpty_iff, hne, pyCharIsDigit_of_isDigit s.data hall]
      simp [sub_steps_py, hgate, pyInt_ascii s hall]
    cases hu : db.getUser (strToNat s) with
    | none =>
      have h1 := get_current_user_user_not_found cfg now db c hexp ht hdig
        (by rw [hgetD]; exact hu)
      have h2 := get_current_user_user_not_found cfg now db
        ⟨some (natStr (strToNat s)), c.type, c.iat, c.exp⟩ hexp ht
        (subIsDigits_natStr (strToNat s))
        (by simpa [strToNat_natStr] using hu)
      exact ⟨h1.trans h2.symm, by rw [h1], by rw [hpy, hu]⟩
    | some u =>
      have h1 := get_current_user_ok cfg now db c u hexp ht hdig
        (by rw [hgetD]; exact hu)
      have h2 := get_current_user_ok cfg now db
        ⟨some (natStr (strToNat s)), c.type, c.iat, c.exp⟩ u hexp ht
        (subIsDigits_natStr (strToNat s))
        (by simpa [strToNat_natStr] using hu)
      exact ⟨h1.trans h2.symm, by rw [h1], by rw [hpy, hu]⟩
  · rintro ⟨ch, hch, -, hd⟩
    have hallf : s.data.all Char.isDigit = false := by
      by_contra habs
      have hmp := List.all_eq_true.mp (Bool.not_eq_false _ ▸ habs) ch hch
      rw [hd] at hmp
      cases hmp
    have hdig : subIsDigits c.sub = false := by
      rw [hsub]
      simp [subIsDigits, hallf]
    exact get_current_user_bad_sub cfg now db c hexp ht hdig

/-- Concrete instantiation of the amended C10: subject `"007"` resolves to
user 7 exactly as `"7"` would, while subject `"+7"` is rejected. -/
theorem C10_witness :
    get_current_user defaultConfig 0 ⟨[⟨7, "a@x.com", "h"⟩], []⟩
        (.signed ⟨some "007", some "access", 0, 1800⟩ "change_me") =
      .ok ⟨7, "a@x.com", "h"⟩ ∧
    get_current_user defaultConfig 0 ⟨[⟨7, "a@x.com", "h"⟩], []⟩
        (.signed ⟨some "+7", some "access", 0, 1800⟩ "change_me") =
      .error ⟨401, "Invalid access token"⟩ := by
  have h1 := (C10_ascii_subjects defaultConfig 0
    ⟨[⟨7, "a@x.com", "h"⟩], []⟩ ⟨some "007", some "access", 0, 1800⟩ "007"
    (by decide) rfl rfl).1 (by decide) (by decide)
  have h2 := (C10_ascii_subjects defaultConfig 0
    ⟨[⟨7, "a@x.com", "h"⟩], []⟩ ⟨some "+7", some "access", 0, 1800⟩ "+7"
    (by decide) rfl rfl).2 ⟨'+', by decide, by decide, by decide⟩
  exact ⟨h1.2.1, h2⟩

end SecureNotes
